import Mathlib

/-!
# Verification of the Sync multi-agent backend core

A shallow embedding, in Lean 4, of the agent framework, lexical scorer, RAG
context store, self-healing plan generator and ReAct workflow orchestrator of
the Sync backend (TypeScript), together with theorems settling the
specification claims about them.

Modelling conventions:
* JavaScript strings are Lean `String` / `List Char`; all relevant text in the
  repository is ASCII, where Lean `Char.toLower` agrees with JS `toLowerCase`.
* JS `number` values are modelled as `ℕ`, `ℤ` or `ℚ` as appropriate; the one
  transcendental used, `Math.log`, is kept as an uninterpreted function
  parameter `jsLog : ℕ → ℚ`, since no verified claim depends on its values.
  Floating-point arithmetic is modelled exactly over `ℚ`.
* The floating-point value `NaN` (produced by the JS division `0/0`) is
  modelled by `Option`: `none` is NaN.
* Timestamps (`Date.now()`) and console output are omitted: no claim
  mentions them.
* Filesystem reads and thrown exceptions are modelled with `Option`/`Except`.
-/

namespace Sync

/-! ## Lexical scorer (`backend/src/rag/embeddings.ts`) -/

/-- The JS regex `\w` character class (ASCII word character), as used by
`EmbeddingService.tokenize`. -/
def isWordChar (c : Char) : Bool := c.isAlpha || c.isDigit || c == '_'

/-- Lower-cased character data of a string (JS `toLowerCase` on ASCII text). -/
def lowerData (s : String) : List Char := s.data.map Char.toLower

/-- Maximal runs of characters satisfying `p`; `acc` is the current run,
reversed.  Together with the length filter in `tokenize` this is equivalent to
JS `.replace(/[^\w\s]/g, ' ').split(/\s+/)`: the replace-then-split can
additionally produce empty strings, which the `length > 2` filter removes. -/
def runsAux (p : Char → Bool) : List Char → List Char → List (List Char)
  | [], acc => if acc.isEmpty then [] else [acc.reverse]
  | c :: cs, acc =>
    if p c then runsAux p cs (c :: acc)
    else if acc.isEmpty then runsAux p cs []
    else acc.reverse :: runsAux p cs []

/-- `EmbeddingService.tokenize`: lower-case, strip non-word characters, split
on whitespace, drop tokens of length ≤ 2. -/
def tokenize (s : String) : List (List Char) :=
  (runsAux isWordChar (lowerData s) []).filter (fun w => 2 < w.length)

/-- `EmbeddingService.calculateRelevance`.  `none` is the JS value `NaN`:
when the query tokenizes to zero tokens and the document does not, the JS
code computes `matches / queryWords.length = 0 / 0 = NaN` — only the empty
document is guarded (`if (docWords.length === 0) return 0`).  `jsLog` stands
for `Math.log`.  The set-membership count iterates over the query words with
multiplicity, exactly as the JS `queryWords.forEach` over `docWordSet`. -/
def calculateRelevance (jsLog : ℕ → ℚ) (query document : String) : Option ℚ :=
  let queryWords := tokenize query
  let docWords := tokenize document
  if docWords.length = 0 then some 0
  else if queryWords.length = 0 then none
  else
    let numMatches := (queryWords.filter (fun w => docWords.contains w)).length
    some (((numMatches : ℚ) / (queryWords.length : ℚ)) * jsLog (docWords.length + 1))

/-! ## Context store (`backend/src/rag/ragSystem.ts`) -/

/-- The fixed retrieval keyword allow-list of `RAGSystem.shouldRetrieve`. -/
def retrievalKeywords : List String :=
  ["history", "past", "previous", "similar", "outage", "pattern",
   "customer", "feedback", "sentiment", "complaint", "issue", "problem",
   "competitor", "repair", "telemetry", "data", "analysis"]

/-- JS `String.prototype.includes`, over character lists. -/
def containsSeq (hay needle : List Char) : Bool :=
  hay.tails.any (fun t => needle.isPrefixOf t)

/-- JS `hay.includes(needle)` on strings. -/
def strIncludes (hay needle : String) : Bool := containsSeq hay.data needle.data

/-- `RAGSystem.shouldRetrieve`: the query (lower-cased) contains at least one
retrieval keyword as a substring. -/
def shouldRetrieve (query : String) : Bool :=
  retrievalKeywords.any (fun kw => containsSeq (lowerData query) kw.data)

/-- One stored chunk (`DocumentChunk`).  The `metadata` record (chunk length
and paragraph count, possibly merged with caller metadata in `addDocument`)
is omitted: no claim refers to it and it does not influence
`content`/`source`/`index` or retrieval. -/
structure Chunk where
  content : String
  source : String
  index : ℕ
  deriving DecidableEq

/-- JS `content.split(/\n\n+/)`: split on maximal runs of two or more newline
characters.  `acc` is the current paragraph reversed, `pend` counts newline
characters read but not yet classified as separator or text. -/
def splitParasAux : List Char → List Char → ℕ → List (List Char)
  | [], acc, pend =>
    if 2 ≤ pend then [acc.reverse, []]
    else [acc.reverse ++ List.replicate pend '\n']
  | c :: cs, acc, pend =>
    if c = '\n' then splitParasAux cs acc (pend + 1)
    else if 2 ≤ pend then acc.reverse :: splitParasAux cs [c] 0
    else splitParasAux cs (c :: (List.replicate pend '\n' ++ acc)) 0

/-- The paragraph list of a document, per JS `content.split(/\n\n+/)`. -/
def splitParas (content : String) : List (List Char) :=
  splitParasAux content.data [] 0

/-- JS `currentChunk.split(' ')`: split on every single space character,
keeping empty pieces. -/
def splitSpacesAux : List Char → List Char → List (List Char)
  | [], acc => [acc.reverse]
  | c :: cs, acc =>
    if c = ' ' then acc.reverse :: splitSpacesAux cs []
    else splitSpacesAux cs (c :: acc)

/-- The whitespace class trimmed by JS `String.prototype.trim` (ASCII part). -/
def isJsSpace (c : Char) : Bool :=
  c == ' ' || c == '\t' || c == '\n' || c == '\r' || c == '\x0b' || c == '\x0c'

/-- JS `String.prototype.trim` on character lists. -/
def trimData (l : List Char) : List Char :=
  ((l.dropWhile isJsSpace).reverse.dropWhile isJsSpace).reverse

/-- JS `array.slice(-n)`.  Note the JS quirk `slice(-0) = slice(0)`: with
`n = 0` the whole array is returned, not the empty one. -/
def sliceNeg {α : Type} (n : ℕ) (l : List α) : List α :=
  if n = 0 then l else l.drop (l.length - n)

/-- The paragraph loop of `RAGSystem.chunkDocument`.  `cur` is
`currentChunk` as characters, `idx` is `chunkIndex`.  String length is
UTF-16 code units in JS and characters here; these agree on ASCII text. -/
def chunkLoop (chunkSize chunkOverlap : ℕ) (source : String) :
    List (List Char) → List Char → ℕ → List Chunk
  | [], cur, idx =>
    if (trimData cur).isEmpty then []
    else [⟨String.mk (trimData cur), source, idx⟩]
  | p :: ps, cur, idx =>
    if chunkSize < cur.length + p.length ∧ 0 < cur.length then
      let overlapWords := chunkOverlap / 5
      let words := splitSpacesAux cur []
      let newCur := List.intercalate [' '] (sliceNeg overlapWords words) ++ '\n' :: '\n' :: p
      ⟨String.mk (trimData cur), source, idx⟩ ::
        chunkLoop chunkSize chunkOverlap source ps newCur (idx + 1)
    else
      chunkLoop chunkSize chunkOverlap source ps
        (cur ++ (if cur.isEmpty then [] else ['\n', '\n']) ++ p) idx

/-- `RAGSystem.chunkDocument`. -/
def chunkDocument (chunkSize chunkOverlap : ℕ) (content source : String) : List Chunk :=
  chunkLoop chunkSize chunkOverlap source (splitParas content) [] 0

/-- The document-holding state of `RAGSystem` (`this.documents`,
`this.isInitialized`).  `chunkSize`/`chunkOverlap` are constructor
parameters (defaults 500/100) and are passed explicitly here. -/
structure Store where
  documents : List Chunk
  isInitialized : Bool
  deriving DecidableEq

/-- A fresh `RAGSystem`. -/
def emptyStore : Store := ⟨[], false⟩

/-- `RAGSystem.addDocument`: chunk and append; never re-chunks existing
content.  The optional extra metadata merge only touches the omitted
metadata record. -/
def addDocument (chunkSize chunkOverlap : ℕ) (st : Store) (content source : String) : Store :=
  { st with documents := st.documents ++ chunkDocument chunkSize chunkOverlap content source }

/-- Model of the corpus directory: `none` when the directory is missing (the
code then creates it empty); otherwise the directory listing, each file with
`some` content, or `none` when `readFileSync` on it fails. -/
abbrev DirListing := Option (List (String × Option String))

/-- The `.txt` filter applied to the directory listing. -/
def endsWithTxt (name : String) : Bool := ".txt".data.isSuffixOf name.data

/-- The file-loading loop of `RAGSystem.initialize`: chunks each readable
file in order, pushing its chunks into the store.  A failing `readFileSync`
throws; the surrounding `catch` logs the error and rethrows (`throw error`),
so the loop aborts, later files stay unloaded, and `isInitialized` stays
false.  The second component is the escaped error, if any. -/
def loadLoop (chunkSize chunkOverlap : ℕ) :
    List (String × Option String) → Store → Store × Option String
  | [], st => ({ st with isInitialized := true }, none)
  | (name, contents) :: rest, st =>
    match contents with
    | none => (st, some ("read failure: " ++ name))
    | some c =>
      loadLoop chunkSize chunkOverlap rest
        { st with documents := st.documents ++ chunkDocument chunkSize chunkOverlap c name }

/-- `RAGSystem.initialize`: no-op when already initialized; a missing corpus
directory is created (`mkdirSync`) and its fresh listing is empty; otherwise
the `.txt` files of the listing are loaded in order. -/
def initializeStore (chunkSize chunkOverlap : ℕ) (st : Store) (dir : DirListing) :
    Store × Option String :=
  if st.isInitialized then (st, none)
  else
    match dir with
    | none => ({ st with isInitialized := true }, none)
    | some files => loadLoop chunkSize chunkOverlap (files.filter (fun f => endsWithTxt f.1)) st

/-- `RetrievedDocument`. -/
structure RetrievedDoc where
  content : String
  source : String
  score : ℚ
  deriving DecidableEq

/-- `RAGContext` (the wall-clock `retrievalTime` field is omitted). -/
structure RAGContext where
  query : String
  documents : List RetrievedDoc
  totalRetrieved : ℕ
  deriving DecidableEq

/-- The score `RAGSystem.retrieve` computes for one chunk.  Every path that
reaches scoring has passed the keyword gate, so the query has at least one
token of length ≥ 3 and `calculateRelevance` is never NaN
(`shouldRetrieve_no_nan` below); `getD 0` therefore only unwraps a value
that is present. -/
def chunkScore (jsLog : ℕ → ℚ) (query : String) (c : Chunk) : ℚ :=
  (calculateRelevance jsLog query c.content).getD 0

/-- The descending-score order used by the sort.  JS
`sort((a, b) => b.score - a.score)` is a stable sort into score-descending
order (stable since ES2019); a stable sort with respect to a total preorder
is unique, so the structural `insertionSort` used below computes the same
list as the engine's merge sort. -/
def scoreDesc (a b : Chunk × ℚ) : Prop := b.2 ≤ a.2

instance : DecidableRel scoreDesc :=
  fun a b => inferInstanceAs (Decidable (b.2 ≤ a.2))

instance : IsTotal (Chunk × ℚ) scoreDesc := ⟨fun a b => le_total b.2 a.2⟩

instance : IsTrans (Chunk × ℚ) scoreDesc := ⟨fun _ _ _ h1 h2 => le_trans h2 h1⟩

/-- `RAGSystem.retrieve` over the chunk list of an initialized store: early
empty return when the keyword gate rejects the query (no chunk is scored);
otherwise score every chunk, sort descending, truncate to `topK`. -/
def retrieve (jsLog : ℕ → ℚ) (docs : List Chunk) (query : String) (topK : ℕ) : RAGContext :=
  if shouldRetrieve query then
    let scored := docs.map (fun d => (d, chunkScore jsLog query d))
    let sorted := List.insertionSort scoreDesc scored
    let top := sorted.take topK
    let retrievedDocs := top.map (fun ds => RetrievedDoc.mk ds.1.content ds.1.source ds.2)
    { query := query, documents := retrievedDocs, totalRetrieved := retrievedDocs.length }
  else
    { query := query, documents := [], totalRetrieved := 0 }

/-! ## Agent framework (`backend/src/agents/BaseAgent.ts`) -/

/-- `AgentRole` (types/index.ts).  `network_region` is the role string
`NetworkRegionAgent` actually passes to `super`, although the declared
TypeScript union omits it; it is included here so that agent is
representable. -/
inductive AgentRole
  | network_analysis | self_healing | customer_analytics | sentiment
  | research | outline | writer | editor | network_region
  deriving DecidableEq

/-- `AgentStatus`. -/
inductive AgentStatus
  | idle | running | complete | error
  deriving DecidableEq

/-- Log levels of `AgentLog`. -/
inductive LogLevel
  | info | warn | error | debug
  deriving DecidableEq

/-- `AgentState`.  The wall-clock `startTime`/`endTime` fields are omitted.
All `progress` values in the repository are the integer constants
0–100, so `progress` is modelled as `ℕ`. -/
structure AgentState where
  role : AgentRole
  status : AgentStatus
  message : String
  progress : ℕ
  deriving DecidableEq

/-- `AgentLog` (timestamp and free-form payload omitted). -/
structure AgentLogEntry where
  level : LogLevel
  agent : AgentRole
  message : String
  deriving DecidableEq

/-- One observable call an `execute` implementation makes on its `BaseAgent`:
`this.updateState(status, message, progress?)` or
`this.log(level, message)`. -/
inductive AgentEvent
  | update (status : AgentStatus) (message : String) (progress : Option ℕ)
  | logMsg (level : LogLevel) (message : String)
  deriving DecidableEq

/-- Effect of `BaseAgent.updateState` on the state; an omitted progress
argument leaves `progress` unchanged.  A `log` call does not change state. -/
def stepState (s : AgentState) : AgentEvent → AgentState
  | .update st msg p => { s with status := st, message := msg, progress := p.getD s.progress }
  | .logMsg _ _ => s

/-- Effect of one event on the log list (`updateState` also emits a debug
entry, per `BaseAgent.updateState`). -/
def stepLogs (role : AgentRole) (ls : List AgentLogEntry) : AgentEvent → List AgentLogEntry
  | .update _ msg _ => ls ++ [⟨.debug, role, "State updated: " ++ msg⟩]
  | .logMsg lvl msg => ls ++ [⟨lvl, role, msg⟩]

/-- What one call of an agent's abstract `execute` did: the
`updateState`/`log` calls it performed, in order, and whether it returned a
value or threw. -/
structure ExecBehavior (α : Type) where
  events : List AgentEvent
  outcome : Except String α

/-- `AgentResult` (executionTime omitted; `data : Option α` models the
TypeScript `data: T` that is `null` on failure). -/
structure AgentResult (α : Type) where
  success : Bool
  data : Option α
  logs : List AgentLogEntry
  state : AgentState

/-- The state `run()` installs on entry: status `running`, progress 0; the
message is still the constructor's. -/
def initialRunState (role : AgentRole) : AgentState :=
  { role := role, status := .running, message := "Agent initialized", progress := 0 }

/-- `BaseAgent.run`: wraps `execute` with state tracking; success sets
complete/100, a thrown error is caught, logged at error level, and returned
as a structured failure — the exception does not escape. -/
def runAgent {α : Type} (role : AgentRole) (beh : ExecBehavior α) : AgentResult α :=
  let s0 := initialRunState role
  let l0 : List AgentLogEntry := [⟨.info, role, "Starting agent"⟩]
  let s1 := beh.events.foldl stepState s0
  let l1 := beh.events.foldl (stepLogs role) l0
  match beh.outcome with
  | .ok d =>
    { success := true
      data := some d
      logs := l1 ++ [⟨.info, role, "Completed agent"⟩]
      state := { s1 with
                 status := .complete
                 progress := 100
                 message := "Execution completed successfully" } }
  | .error msg =>
    { success := false
      data := none
      logs := l1 ++ [⟨.error, role, "Error in agent"⟩]
      state := { s1 with status := .error, message := msg } }

/-- The successive values of `this.state` from the start of `run()` to its
return: the state set on entry, the state after each `updateState` during
`execute`, and the final state recorded in the result. -/
def runTrajectory {α : Type} (role : AgentRole) (beh : ExecBehavior α) : List AgentState :=
  beh.events.scanl stepState (initialRunState role) ++ [(runAgent role beh).state]

/-- A behavior is one an `execute` with the given full call trace can
produce: a normal return performs the whole trace; a throw interrupts it
after some prefix. -/
def validBehavior {α : Type} (full : List AgentEvent) (beh : ExecBehavior α) : Prop :=
  ((∃ d, beh.outcome = .ok d) ∧ beh.events = full) ∨
    ((∃ msg, beh.outcome = .error msg) ∧ beh.events <+: full)

/-- Well-formedness of an `execute` event trace with respect to progress:
every `updateState` call passes status `running` and a progress value at
least the previous one (`c` on entry) and below 100. -/
def eventsOK (c : ℕ) : List AgentEvent → Prop
  | [] => True
  | .update st _ p? :: rest =>
    st = .running ∧
      (match p? with
       | none => eventsOK c rest
       | some p => c ≤ p ∧ p < 100 ∧ eventsOK p rest)
  | .logMsg _ _ :: rest => eventsOK c rest

/-! ### The `execute` call traces of the agents defined in the repository.

Each is read off the corresponding `execute` implementation; branch
conditions of the source become parameters.  Local `logs.push` calls (the
self-healing agent's output array) are not `this.log` calls and do not
appear. -/

/-- `NetworkAnalysisAgent.execute` (includeRAG branch; `ragDocs` is the
number of documents its RAG retrieval returned). -/
def networkAnalysisEvents (includeRAG : Bool) (ragDocs : ℕ) : List AgentEvent :=
  [.update .running "Initializing network analysis..." (some 10)] ++
  (if includeRAG then
    [.update .running "Retrieving historical network data..." (some 20)] ++
    (if 0 < ragDocs then
      [.logMsg .info ("Retrieved " ++ toString ragDocs ++ " contextual documents")]
     else [])
   else []) ++
  [.update .running "Analyzing network infrastructure..." (some 40),
   .update .running "Requesting LLM analysis..." (some 60),
   .update .running "Processing analysis results..." (some 80),
   .update .running "Finalizing network analysis..." (some 95),
   .logMsg .info "Network analysis completed"]

/-- `SelfHealingAgentExec.execute` call trace (useRAG branch; `ragDocs` is
the number of retrieved repair-strategy documents). -/
def selfHealingEvents (useRAG : Bool) (ragDocs : ℕ) : List AgentEvent :=
  [.update .running "Analyzing network issues..." (some 10)] ++
  (if useRAG then
    [.update .running "Retrieving historical repair strategies..." (some 20)] ++
    (if 0 < ragDocs then [.logMsg .info "RAG context retrieved for self-healing"] else [])
   else []) ++
  [.update .running "Determining repair strategies..." (some 40),
   .update .running "Simulating repair execution..." (some 60),
   .update .running "Verifying system stability..." (some 85),
   .update .running "Finalizing self-healing operations..." (some 95),
   .logMsg .info "Self-healing completed"]

/-- `CustomerAnalyticsAgent.execute` call trace. -/
def customerAnalyticsEvents (nDocs liveSources nItems : ℕ) : List AgentEvent :=
  [.update .running "Initializing customer analytics..." (some 10),
   .update .running "Retrieving customer feedback data (static + live)..." (some 25),
   .logMsg .info ("Retrieved " ++ toString nDocs ++
     " customer feedback documents (includes live customer voices)")] ++
  (if 0 < liveSources then
    [.logMsg .info ("Found " ++ toString liveSources ++
      " live customer voice sources in RAG results")]
   else []) ++
  [.update .running "Analyzing sentiment patterns..." (some 50),
   .logMsg .info ("Extracted " ++ toString nItems ++ " feedback items"),
   .update .running "Running sentiment analysis..." (some 70),
   .update .running "Categorizing insights..." (some 90),
   .logMsg .info "Customer analytics completed"]

/-- `SentimentAgent.execute` call trace. -/
def sentimentEvents : List AgentEvent :=
  [.update .running "Analyzing sentiment..." (some 30),
   .update .running "Requesting LLM sentiment analysis..." (some 60),
   .update .running "Processing sentiment results..." (some 85),
   .logMsg .info "Sentiment analysis completed"]

/-- `ResearchAgent.execute` call trace. -/
def researchEvents (topic : String) (nDocs : ℕ) : List AgentEvent :=
  [.update .running "Initiating research process..." (some 15),
   .logMsg .info ("Researching topic: " ++ topic),
   .update .running "Searching knowledge base..." (some 40),
   .update .running "Analyzing retrieved documents..." (some 70),
   .logMsg .info ("Research completed. Found " ++ toString nDocs ++ " relevant documents")]

/-- `OutlineAgent.execute` call trace. -/
def outlineEvents (topic : String) (nSections : ℕ) : List AgentEvent :=
  [.update .running "Creating outline structure..." (some 20),
   .logMsg .info ("Generating outline for: " ++ topic),
   .update .running "Organizing sections..." (some 50),
   .update .running "Finalizing outline..." (some 90),
   .logMsg .info ("Outline created with " ++ toString nSections ++ " sections")]

/-- `EditorAgent.execute` call trace. -/
def editorEvents (changes quality : ℕ) : List AgentEvent :=
  [.update .running "Analyzing content..." (some 20),
   .logMsg .info "Beginning editorial review",
   .update .running "Checking for improvements..." (some 50),
   .update .running "Finalizing edits..." (some 85),
   .logMsg .info ("Review completed: " ++ toString changes ++ " changes, quality score " ++
     toString quality)]

/-- `NetworkRegionAgent.execute` call trace. -/
def networkRegionEvents (includeRAG : Bool) (nRegions : ℕ) : List AgentEvent :=
  [.update .running "Initializing regional mapping..." (some 10),
   .logMsg .info ("Processing " ++ toString nRegions ++ " regions from network analysis"),
   .update .running "Mapping network topology to geographic coordinates..." (some 30)] ++
  (if includeRAG then
    [.update .running "Retrieving regional context from knowledge base..." (some 40),
     .logMsg .info "RAG context retrieved for regional mapping"]
   else []) ++
  [.update .running "Generating geographic metadata..." (some 60),
   .update .running "Finalizing regional map data..." (some 90),
   .logMsg .info "Regional mapping complete"]

/-- The agents defined in this repository, with the parameters their
`execute` traces depend on. -/
inductive RepoAgent
  | networkAnalysis (includeRAG : Bool) (ragDocs : ℕ)
  | selfHealingA (useRAG : Bool) (ragDocs : ℕ)
  | customerAnalytics (nDocs liveSources nItems : ℕ)
  | sentimentA
  | researchA (topic : String) (nDocs : ℕ)
  | outlineA (topic : String) (nSections : ℕ)
  | editorA (changes quality : ℕ)
  | networkRegion (includeRAG : Bool) (nRegions : ℕ)

/-- The `execute` call trace of each repository agent. -/
def repoAgentEvents : RepoAgent → List AgentEvent
  | .networkAnalysis includeRAG ragDocs => networkAnalysisEvents includeRAG ragDocs
  | .selfHealingA useRAG ragDocs => selfHealingEvents useRAG ragDocs
  | .customerAnalytics nDocs liveSources nItems => customerAnalyticsEvents nDocs liveSources nItems
  | .sentimentA => sentimentEvents
  | .researchA topic nDocs => researchEvents topic nDocs
  | .outlineA topic nSections => outlineEvents topic nSections
  | .editorA changes quality => editorEvents changes quality
  | .networkRegion includeRAG nRegions => networkRegionEvents includeRAG nRegions

/-- The declared role of each repository agent (its `super(role)` call). -/
def repoAgentRole : RepoAgent → AgentRole
  | .networkAnalysis _ _ => .network_analysis
  | .selfHealingA _ _ => .self_healing
  | .customerAnalytics _ _ _ => .customer_analytics
  | .sentimentA => .sentiment
  | .researchA _ _ => .research
  | .outlineA _ _ => .outline
  | .editorA _ _ => .editor
  | .networkRegion _ _ => .network_region

/-! ## Self-healing repair plans (`SelfHealingAgent.generateRepairActions`) -/

/-- One entry of the `allRepairPlans` template table. -/
structure PlanTemplate where
  name : String
  description : String
  baseCost : ℚ
  baseDowntime : ℚ
  baseCustomers : ℚ
  steps : List String
  confidence : ℚ
  deriving DecidableEq

/-- The 10 repair plan templates of `generateRepairActions`. -/
def allRepairPlans : List PlanTemplate :=
  [{ name := "Full Traffic Reroute & Server Reboot"
     description := "Completely reroute traffic from affected regions and perform rolling reboot of all service nodes"
     baseCost := 12500, baseDowntime := 15, baseCustomers := 8500
     steps := ["Drain connections from affected servers",
               "Reroute traffic to healthy regions",
               "Perform rolling reboot of service cluster",
               "Verify health checks pass",
               "Gradually restore traffic"]
     confidence := 92/100 },
   { name := "Partial Reroute & Capacity Scaling"
     description := "Selectively reroute high-priority traffic while scaling up capacity in healthy regions"
     baseCost := 7200, baseDowntime := 5, baseCustomers := 25000
     steps := ["Identify and prioritize critical traffic paths",
               "Scale up healthy region compute capacity by 30%",
               "Gradually shift traffic using weighted routing",
               "Monitor latency and error rates"]
     confidence := 78/100 },
   { name := "DNS Failover & Cache Warmup"
     description := "Implement DNS-based failover with pre-warmed cache layers to minimize disruption"
     baseCost := 5800, baseDowntime := 3, baseCustomers := 12000
     steps := ["Configure DNS failover to secondary data centers",
               "Pre-warm cache in target regions",
               "Gradually shift DNS resolution",
               "Monitor cache hit rates and latency"]
     confidence := 85/100 },
   { name := "Database Replication Sync & Rollover"
     description := "Promote replica database to primary and sync replication lag"
     baseCost := 9400, baseDowntime := 8, baseCustomers := 18000
     steps := ["Verify replica lag is minimal",
               "Promote replica to primary",
               "Update application connection strings",
               "Monitor replication consistency"]
     confidence := 88/100 },
   { name := "Load Balancer Reconfiguration"
     description := "Dynamically adjust load balancer weights to distribute traffic away from degraded nodes"
     baseCost := 4200, baseDowntime := 2, baseCustomers := 5000
     steps := ["Identify healthy backend nodes",
               "Adjust load balancer weight distribution",
               "Gradually drain traffic from affected nodes",
               "Monitor response times and error rates"]
     confidence := 82/100 },
   { name := "CDN Cache Purge & Edge Optimization"
     description := "Purge stale CDN cache and optimize edge routing to reduce origin load"
     baseCost := 3500, baseDowntime := 1, baseCustomers := 8000
     steps := ["Identify stale cache entries",
               "Execute coordinated cache purge",
               "Update edge routing rules",
               "Monitor cache hit ratios"]
     confidence := 75/100 },
   { name := "Container Orchestration Reschedule"
     description := "Reschedule affected containers to healthy nodes using orchestration platform"
     baseCost := 6800, baseDowntime := 4, baseCustomers := 15000
     steps := ["Drain pods from affected nodes",
               "Reschedule workloads to healthy nodes",
               "Verify pod health checks",
               "Monitor cluster resource utilization"]
     confidence := 87/100 },
   { name := "Network Path Optimization & BGP Update"
     description := "Update BGP routing tables to optimize network paths and reduce latency"
     baseCost := 11000, baseDowntime := 12, baseCustomers := 22000
     steps := ["Analyze current routing topology",
               "Calculate optimal BGP path weights",
               "Update BGP configuration",
               "Monitor routing convergence"]
     confidence := 80/100 },
   { name := "Auto-Scaling Trigger & Capacity Boost"
     description := "Trigger auto-scaling to add capacity and handle increased load"
     baseCost := 8900, baseDowntime := 6, baseCustomers := 10000
     steps := ["Calculate required capacity increase",
               "Trigger auto-scaling policies",
               "Wait for new instances to become healthy",
               "Gradually distribute load to new capacity"]
     confidence := 83/100 },
   { name := "Manual Engineer Intervention"
     description := "Escalate to on-call engineering team for deep investigation and manual remediation"
     baseCost := 18000, baseDowntime := 60, baseCustomers := 150000
     steps := ["Page on-call engineers",
               "Conduct root cause analysis",
               "Implement custom fix based on findings",
               "Perform extensive testing",
               "Deploy fix to production"]
     confidence := 95/100 }]

/-- The ±20% randomizer of `generateRepairActions`:
`Math.floor(min + Math.random() * (max - min))` with
`min = base * 0.8`, `max = base * 1.2`; `r` is the `Math.random()` draw. -/
def randomize (base r : ℚ) : ℤ :=
  let variance : ℚ := 1/5
  let lo := base * (1 - variance)
  let hi := base * (1 + variance)
  ⌊lo + r * (hi - lo)⌋

/-- `RepairAction` (types/index.ts). -/
structure RepairAction where
  id : String
  name : String
  description : String
  estimatedCost : ℤ
  estimatedDowntime : ℤ
  affectedCustomers : ℤ
  steps : List String
  isRecommended : Bool
  confidence : ℚ
  deriving DecidableEq

/-- `SelfHealingAgent.generateRepairActions`.  The JS shuffles
`allRepairPlans` with `sort(() => Math.random() - 0.5)` — some permutation
of the table, passed here as `shuffled` — takes the first 3, and converts
each with fresh `Math.random()` draws, one per numeric field, supplied here
by `rand` (cost, downtime, customers draws for each selected index).  The
input `NetworkAnalysis` is ignored by the source. -/
def generateRepairActions (shuffled : List PlanTemplate) (rand : ℕ → ℚ × ℚ × ℚ) :
    List RepairAction :=
  let selectedPlans := shuffled.take 3
  selectedPlans.mapIdx (fun index plan =>
    { id := "repair-" ++ toString (index + 1)
      name := plan.name
      description := plan.description
      estimatedCost := randomize plan.baseCost (rand index).1
      estimatedDowntime := randomize plan.baseDowntime (rand index).2.1
      affectedCustomers := randomize plan.baseCustomers (rand index).2.2
      steps := plan.steps
      isRecommended := index == 0
      confidence := plan.confidence })

/-! ## ReAct workflow orchestrator (`backend/src/workflows/reactWorkflow.ts`) -/

/-- `NetworkStatus`. -/
inductive NetworkStatus
  | healthy | warning | critical
  deriving DecidableEq

/-- Status text used when the workflow interpolates a `NetworkStatus`. -/
def statusText : NetworkStatus → String
  | .healthy => "healthy"
  | .warning => "warning"
  | .critical => "critical"

/-- The part of `NetworkAnalysis` the workflow consumes
(`overallStatus`, `issues.length`); remaining fields omitted. -/
structure NetworkAnalysisData where
  overallStatus : NetworkStatus
  issues : List String
  deriving DecidableEq

/-- The part of a `CustomerInsight` list pair the workflow consumes
(only the lengths); insight payload fields omitted. -/
structure CustomerAnalyticsData where
  positiveInsights : List String
  negativeInsights : List String
  deriving DecidableEq

/-- Verification status of a self-healing run. -/
inductive VerificationStatus
  | stable | partial_risk | requires_monitoring
  deriving DecidableEq

/-- Text of a `VerificationStatus`. -/
def verificationText : VerificationStatus → String
  | .stable => "stable"
  | .partial_risk => "partial_risk"
  | .requires_monitoring => "requires_monitoring"

/-- The part of the self-healing output the workflow consumes. -/
structure SelfHealingData where
  repairActions : List RepairAction
  verificationStatus : VerificationStatus
  deriving DecidableEq

/-- What an invoked agent's `run` returned, as the workflow sees it:
`success` and `data` (`none` models the `null` data of a failed run).  The
workflow reads `result.data` without consulting `result.success`. -/
structure RunResult (α : Type) where
  success : Bool
  data : Option α

/-- `ReActStep` (`actionInput` and `timestamp` omitted). -/
structure ReActStep where
  stepNumber : ℕ
  thought : String
  action : String
  observation : String
  agentsInvolved : List AgentRole
  deriving DecidableEq

/-- `ReActResult` (`executionTime` omitted; `finalSummary` is the `summary`
field of `synthesizeFinalAnswer`). -/
structure ReActResult where
  query : String
  steps : List ReActStep
  finalSummary : String
  totalSteps : ℕ
  agentsUsed : List AgentRole
  ragUsed : Bool
  deriving DecidableEq

/-- Lower-cased string (JS `toLowerCase` on ASCII text). -/
def lowerStr (s : String) : String := String.mk (lowerData s)

/-- `ReActWorkflow.reason`. -/
def reason (query : String) (stepNumber : ℕ) : String :=
  let lowerQuery := lowerStr query
  if stepNumber = 1 then
    if strIncludes lowerQuery "network" || strIncludes lowerQuery "system" ||
        strIncludes lowerQuery "infrastructure" then
      "The query is about network/system status. I should analyze the current network infrastructure health."
    else if strIncludes lowerQuery "customer" || strIncludes lowerQuery "sentiment" ||
        strIncludes lowerQuery "feedback" then
      "The query is about customer insights. I should analyze customer sentiment and feedback patterns."
    else
      "General query. I should gather relevant context from the knowledge base before proceeding."
  else
    "Continue with analysis based on previous observations."

/-- The three action strings `determineAction` can return. -/
def networkActionText : String := "Run NetworkAnalysisAgent to assess current system health"

/-- Action string of the customer-analytics branch. -/
def customerActionText : String := "Run CustomerAnalyticsAgent to extract customer insights"

/-- Action string of the research branch. -/
def researchActionText : String := "Run ResearchAgent to retrieve relevant context from knowledge base"

/-- `ReActWorkflow.determineAction` (the `query` parameter is unused in the
source as well). -/
def determineAction (thought query : String) : String :=
  if strIncludes thought "network" || strIncludes thought "infrastructure" then
    networkActionText
  else if strIncludes thought "customer" || strIncludes thought "sentiment" then
    customerActionText
  else
    researchActionText

/-- `Set.add` + `Array.from` over agent roles: JS `Set` preserves insertion
order and ignores duplicates. -/
def addRole (l : List AgentRole) (r : AgentRole) : List AgentRole :=
  if l.contains r then l else l ++ [r]

/-- `ReActWorkflow.execute`, as a function of the query, the RAG flag, and
the results the four invocable agents' `run` calls would return.  The
observation strings dereference `result.data` with no `success` check, so a
failed run (`data = null`) raises a TypeError, modelled as `Except.error`;
there is no branch that records a failure observation.  Note the step-1
condition `action1.includes('network')` is false even for the network
action text (its only occurrence of "network" is capitalized), so step 1
can only ever invoke the research agent. -/
def wfExecute (query : String) (enableRAG : Bool)
    (networkRes : RunResult NetworkAnalysisData)
    (researchRes : RunResult RAGContext)
    (customerRes : RunResult CustomerAnalyticsData)
    (selfHealRes : RunResult SelfHealingData) : Except String ReActResult := do
  let thought1 := reason query 1
  let action1 := determineAction thought1 query
  let (observation1, agents1, rag1, networkAnalysis) ←
    if strIncludes action1 "network" then
      match networkRes.data with
      | none => Except.error "TypeError: cannot read properties of null (reading overallStatus)"
      | some d =>
        pure ("Network analysis completed. Overall status: " ++ statusText d.overallStatus ++
                ". Found " ++ toString d.issues.length ++ " issues.",
              [AgentRole.network_analysis], false, some d)
    else if strIncludes action1 "research" || strIncludes action1 "retrieve" then
      match researchRes.data with
      | none => Except.error "TypeError: cannot read properties of null (reading documents)"
      | some d =>
        pure ("Research completed. Retrieved " ++ toString d.documents.length ++
                " relevant documents.",
              [AgentRole.research], true, (none : Option NetworkAnalysisData))
    else
      pure ("", [], false, none)
  let agentsUsed1 := agents1
  let steps1 : List ReActStep := [⟨1, thought1, action1, observation1, agentsUsed1⟩]
  let lcq := lowerStr query
  let (steps2, agentsUsed2, rag2) ←
    if strIncludes lcq "customer" || strIncludes lcq "sentiment" then
      match customerRes.data with
      | none => Except.error "TypeError: cannot read properties of null (reading positiveInsights)"
      | some d =>
        let thought2 := "Need to analyze customer feedback to extract positive and negative insights"
        let action2 := "Run CustomerAnalyticsAgent to extract top insights"
        let observation2 := "Customer analytics completed. Found " ++
          toString d.positiveInsights.length ++ " positive and " ++
          toString d.negativeInsights.length ++ " negative insights."
        pure (steps1 ++ [⟨2, thought2, action2, observation2, [AgentRole.customer_analytics]⟩],
              addRole agentsUsed1 .customer_analytics, true)
    else
      pure (steps1, agentsUsed1, rag1)
  let (steps3, agentsUsed3) ←
    match networkAnalysis with
    | some d =>
      if d.overallStatus = .warning ∨ d.overallStatus = .critical then
        match selfHealRes.data with
        | none => Except.error "TypeError: cannot read properties of null (reading repairActions)"
        | some sd =>
          let thought3 := "Network issues detected. Should initiate self-healing procedures"
          let action3 := "Run SelfHealingAgent to generate repair strategies"
          let observation3 := "Self-healing analysis completed. Generated " ++
            toString sd.repairActions.length ++ " repair actions. Status: " ++
            verificationText sd.verificationStatus
          pure (steps2 ++ [⟨steps2.length + 1, thought3, action3, observation3,
                  [AgentRole.self_healing]⟩],
                addRole agentsUsed2 .self_healing)
      else
        pure (steps2, agentsUsed2)
    | none => pure (steps2, agentsUsed2)
  let finalThought := "All necessary analyses completed. Synthesizing final answer."
  let finalAction := "Compile results from all agents"
  let finalObservation := "Workflow completed with " ++ toString steps3.length ++
    " steps and " ++ toString agentsUsed3.length ++ " agents."
  let stepsF := steps3 ++ [⟨steps3.length + 1, finalThought, finalAction, finalObservation,
    agentsUsed3⟩]
  pure { query := query
         steps := stepsF
         finalSummary := "Completed multi-agent analysis with " ++ toString stepsF.length ++
           " reasoning steps"
         totalSteps := stepsF.length
         agentsUsed := agentsUsed3
         ragUsed := rag2 }

/-! ## Theorems -/

/-- C2: for every loaded corpus, query and k, `retrieve(query, k)` returns at
most k documents, sorted by score in descending order, all drawn from the
store's chunks. -/
theorem retrieve_sorted_bounded (jsLog : ℕ → ℚ) (docs : List Chunk) (query : String) (topK : ℕ) :
    (retrieve jsLog docs query topK).documents.length ≤ topK ∧
    List.Sorted (fun a b : RetrievedDoc => b.score ≤ a.score)
      (retrieve jsLog docs query topK).documents ∧
    ∀ d ∈ (retrieve jsLog docs query topK).documents,
      ∃ c ∈ docs, d.content = c.content ∧ d.source = c.source := by
  unfold retrieve
  by_cases h : shouldRetrieve query
  · simp only [h, if_true]
    refine ⟨?_, ?_, ?_⟩
    · rw [List.length_map]
      exact List.length_take_le _ _
    · have hs : List.Sorted scoreDesc
          (List.insertionSort scoreDesc (docs.map (fun d => (d, chunkScore jsLog query d)))) :=
        List.sorted_insertionSort scoreDesc _
      have hs2 : List.Sorted scoreDesc
          ((List.insertionSort scoreDesc
            (docs.map (fun d => (d, chunkScore jsLog query d)))).take topK) :=
        hs.sublist (List.take_sublist _ _)
      rw [List.Sorted, List.pairwise_map]
      exact hs2
    · intro d hd
      rw [List.mem_map] at hd
      obtain ⟨x, hx, rfl⟩ := hd
      have hx2 : x ∈ List.insertionSort scoreDesc
          (docs.map (fun d => (d, chunkScore jsLog query d))) :=
        (List.take_sublist _ _).subset hx
      have hx3 : x ∈ docs.map (fun d => (d, chunkScore jsLog query d)) :=
        (List.perm_insertionSort scoreDesc _).subset hx2
      rw [List.mem_map] at hx3
      obtain ⟨c, hc, rfl⟩ := hx3
      exact ⟨c, hc, rfl, rfl⟩
  · simp [h]

/-- C3: a query containing no retrieval keyword yields `totalRetrieved = 0`
with an empty document list, independently of the stored chunks (no chunk is
scored: the gate's early return precedes the scoring map). -/
theorem retrieve_gate_empty (jsLog : ℕ → ℚ) (docs : List Chunk) (query : String) (topK : ℕ)
    (h : shouldRetrieve query = false) :
    retrieve jsLog docs query topK = { query := query, documents := [], totalRetrieved := 0 } ∧
    ∀ docs2 : List Chunk, retrieve jsLog docs query topK = retrieve jsLog docs2 query topK := by
  constructor
  · simp [retrieve, h]
  · intro docs2; simp [retrieve, h]

/-- Witness for C3 at the spec's Scenario B query "hello". -/
theorem retrieve_gate_empty_witness :
    shouldRetrieve "hello" = false ∧
    retrieve (fun _ => 0) [⟨"alpha", "s", 0⟩] "hello" 3 =
      { query := "hello", documents := [], totalRetrieved := 0 } :=
  ⟨by decide, (retrieve_gate_empty (fun _ => 0) [⟨"alpha", "s", 0⟩] "hello" 3 (by decide)).1⟩

/-- C10: retrieval applies no minimum-score threshold; past the keyword gate
the result holds exactly `min k N` documents. -/
theorem retrieve_count_min (jsLog : ℕ → ℚ) (docs : List Chunk) (query : String) (topK : ℕ)
    (hq : shouldRetrieve query = true) (_hN : 1 ≤ docs.length) :
    (retrieve jsLog docs query topK).totalRetrieved = min topK docs.length ∧
    (retrieve jsLog docs query topK).documents.length = min topK docs.length := by
  constructor <;> simp [retrieve, hq, List.length_take, List.length_insertionSort]

/-- Witness for C10: one stored chunk, k = 3, a keyword query. -/
theorem retrieve_count_min_witness :
    shouldRetrieve "customer feedback" = true ∧
    (retrieve (fun _ => 0) [⟨"alpha", "s", 0⟩] "customer feedback" 3).totalRetrieved = min 3 1 :=
  ⟨by decide,
   (retrieve_count_min (fun _ => 0) [⟨"alpha", "s", 0⟩] "customer feedback" 3
     (by decide) (by decide)).1⟩

/-- C4 (amended): an empty document yields relevance 0 (that side is
guarded), but an empty query against a nonempty document is NOT guarded: the
JS division `0/0` produces NaN (`none`), not 0. -/
theorem relevance_empty_guards (jsLog : ℕ → ℚ) (q d : String) :
    (tokenize d = [] → calculateRelevance jsLog q d = some 0) ∧
    (tokenize q = [] → tokenize d ≠ [] → calculateRelevance jsLog q d = none) := by
  constructor
  · intro hd
    simp [calculateRelevance, hd]
  · intro hq hd
    simp [calculateRelevance, hq, hd]

/-- C4 counterexample: the empty query (zero tokens) against a nonempty
document evaluates to NaN (`none`), not to the claimed guarded 0. -/
theorem relevance_empty_query_nan :
    calculateRelevance (fun _ => 0) "" "hello there" = none ∧
    calculateRelevance (fun _ => 0) "" "hello there" ≠ some 0 := by
  constructor <;> decide

/-- Witness for the amended C4. -/
theorem relevance_empty_guards_witness :
    calculateRelevance (fun _ => 0) "hi" "" = some 0 ∧
    calculateRelevance (fun _ => 0) "" "hello world" = none :=
  ⟨(relevance_empty_guards (fun _ => 0) "hi" "").1 (by decide),
   (relevance_empty_guards (fun _ => 0) "" "hello world").2 (by decide) (by decide)⟩

/-- The loading loop fails (propagates the thrown read error) whenever some
listed file is unreadable. -/
theorem loadLoop_some_error (cs co : ℕ) :
    ∀ (fs : List (String × Option String)) (st : Store),
      (∃ f ∈ fs, f.2 = none) → (loadLoop cs co fs st).2.isSome = true := by
  intro fs
  induction fs with
  | nil => intro st h; simp at h
  | cons f rest ih =>
    intro st hex
    obtain ⟨g, hg, hgnone⟩ := hex
    match f with
    | (name, none) => simp [loadLoop]
    | (name, some c) =>
      rcases List.mem_cons.mp hg with h | h
      · rw [h] at hgnone; simp at hgnone
      · exact ih _ ⟨g, h, hgnone⟩

/-- The loading loop succeeds and marks the store initialized when every
listed file is readable. -/
theorem loadLoop_all_ok (cs co : ℕ) :
    ∀ (fs : List (String × Option String)) (st : Store),
      (∀ f ∈ fs, f.2.isSome) →
      (loadLoop cs co fs st).2 = none ∧ (loadLoop cs co fs st).1.isInitialized = true := by
  intro fs
  induction fs with
  | nil => intro st _; simp [loadLoop]
  | cons f rest ih =>
    intro st hall
    match f with
    | (name, none) =>
      have := hall (name, none) (List.mem_cons_self _ _)
      simp at this
    | (name, some c) =>
      exact ih _ (fun g hg => hall g (List.mem_cons_of_mem _ hg))

/-- C5 (amended): a missing corpus directory is auto-created and
initialization completes non-fatally with zero new documents; but an
unreadable source file is NOT skipped — `initialize` logs and rethrows, so
it fails whenever some `.txt` file is unreadable, and completes only when
all are readable. -/
theorem initialize_failure_semantics (cs co : ℕ) :
    (∀ st : Store, st.isInitialized = false →
        initializeStore cs co st none = ({ st with isInitialized := true }, none)) ∧
    (∀ (st : Store) (files : List (String × Option String)), st.isInitialized = false →
        (∃ f ∈ files.filter (fun f => endsWithTxt f.1), f.2 = none) →
        (initializeStore cs co st (some files)).2.isSome = true) ∧
    (∀ (st : Store) (files : List (String × Option String)), st.isInitialized = false →
        (∀ f ∈ files.filter (fun f => endsWithTxt f.1), f.2.isSome) →
        (initializeStore cs co st (some files)).2 = none ∧
        (initializeStore cs co st (some files)).1.isInitialized = true) := by
  refine ⟨?_, ?_, ?_⟩
  · intro st h; simp [initializeStore, h]
  · intro st files h hex
    simpa [initializeStore, h] using loadLoop_some_error cs co _ st hex
  · intro st files h hall
    simpa [initializeStore, h] using loadLoop_all_ok cs co _ st hall

/-- C5 counterexample: with files a.txt (readable), b.txt (unreadable),
c.txt (readable), `initialize` propagates the read error, only a.txt's
chunks are loaded — c.txt is never reached — and the store is left
uninitialized, contradicting skip-and-continue. -/
theorem initialize_unreadable_aborts :
    (initializeStore 500 100 emptyStore
        (some [("a.txt", some "alpha beta"), ("b.txt", none), ("c.txt", some "gamma")])).2 =
      some "read failure: b.txt" ∧
    ((initializeStore 500 100 emptyStore
        (some [("a.txt", some "alpha beta"), ("b.txt", none),
          ("c.txt", some "gamma")])).1.documents.map (fun c => c.source)) = ["a.txt"] ∧
    (initializeStore 500 100 emptyStore
        (some [("a.txt", some "alpha beta"), ("b.txt", none),
          ("c.txt", some "gamma")])).1.isInitialized = false := by
  refine ⟨?_, ?_, ?_⟩ <;> decide

/-- Witness for the amended C5. -/
theorem initialize_failure_semantics_witness :
    initializeStore 500 100 emptyStore none = ({ emptyStore with isInitialized := true }, none) ∧
    (initializeStore 500 100 emptyStore
      (some [("x.txt", (none : Option String))])).2.isSome = true :=
  ⟨(initialize_failure_semantics 500 100).1 emptyStore rfl,
   (initialize_failure_semantics 500 100).2.1 emptyStore [("x.txt", none)] rfl
     ⟨("x.txt", none), by decide, rfl⟩⟩

/-- C6: a thrown `execute` is caught by `run`, which returns a structured
failure: `success = false`, `data = null`, a non-empty log list containing
an error-level entry, final status `error`.  That no exception escapes is
structural: `runAgent` is a total function into `AgentResult`. -/
theorem run_catches_failure {α : Type} (role : AgentRole) (beh : ExecBehavior α) (msg : String)
    (h : beh.outcome = .error msg) :
    (runAgent role beh).success = false ∧
    (runAgent role beh).data = none ∧
    (runAgent role beh).logs ≠ [] ∧
    (∃ l ∈ (runAgent role beh).logs, l.level = .error) ∧
    (runAgent role beh).state.status = .error := by
  refine ⟨by simp [runAgent, h], by simp [runAgent, h], by simp [runAgent, h],
    ⟨⟨.error, role, "Error in agent"⟩, by simp [runAgent, h], rfl⟩, by simp [runAgent, h]⟩

/-- Witness for C6: a behavior that throws immediately. -/
theorem run_catches_failure_witness :
    (runAgent .research (⟨[], .error "boom"⟩ : ExecBehavior Unit)).success = false ∧
    (runAgent .research (⟨[], .error "boom"⟩ : ExecBehavior Unit)).data = none ∧
    (runAgent .research (⟨[], .error "boom"⟩ : ExecBehavior Unit)).logs ≠ [] ∧
    (∃ l ∈ (runAgent .research (⟨[], .error "boom"⟩ : ExecBehavior Unit)).logs,
      l.level = .error) ∧
    (runAgent .research (⟨[], .error "boom"⟩ : ExecBehavior Unit)).state.status = .error :=
  run_catches_failure .research ⟨[], .error "boom"⟩ "boom" rfl

/-- Within one `chunkDocument` call the chunk indices produced by the
paragraph loop are at least the starting index, strictly increasing, and
each chunk carries the given source. -/
theorem chunkLoop_spec (cs co : ℕ) (src : String) :
    ∀ (ps : List (List Char)) (cur : List Char) (idx : ℕ),
      (∀ c ∈ chunkLoop cs co src ps cur idx, idx ≤ c.index ∧ c.source = src) ∧
      List.Pairwise (fun a b : Chunk => a.index < b.index) (chunkLoop cs co src ps cur idx) := by
  intro ps
  induction ps with
  | nil =>
    intro cur idx
    constructor
    · intro c hc
      unfold chunkLoop at hc
      split at hc <;> simp_all
    · unfold chunkLoop
      split <;> simp
  | cons p ps ih =>
    intro cur idx
    unfold chunkLoop
    split
    · refine ⟨?_, ?_⟩
      · intro c hc
        rcases List.mem_cons.mp hc with h | h
        · simp [h]
        · have := (ih _ (idx + 1)).1 c h
          exact ⟨Nat.le_of_succ_le this.1, this.2⟩
      · refine List.Pairwise.cons ?_ (ih _ (idx + 1)).2
        intro c hc
        exact Nat.lt_of_succ_le ((ih _ (idx + 1)).1 c hc).1
    · exact ih _ idx

/-- C9 (amended): chunk indices are unique within a single `chunkDocument`
call (one `initialize` file load or one `addDocument` call), and every chunk
of the call carries the given source.  Uniqueness across repeated
`addDocument` calls with the same source fails (see the counterexample):
each call restarts indices at 0. -/
theorem chunk_indices_unique_per_call (cs co : ℕ) (content source : String) :
    List.Pairwise (fun a b : Chunk => a.index ≠ b.index)
      (chunkDocument cs co content source) ∧
    ∀ c ∈ chunkDocument cs co content source, c.source = source := by
  have h := chunkLoop_spec cs co source (splitParas content) [] 0
  exact ⟨(h.2).imp Nat.ne_of_lt, fun c hc => (h.1 c hc).2⟩

/-- C9 counterexample: `initialize` on a missing directory followed by two
`addDocument` calls with the same source stores two chunks that share both
source "s" and index 0. -/
theorem chunk_index_collision :
    ((addDocument 500 100 (addDocument 500 100 (initializeStore 500 100 emptyStore none).1
        "hello world" "s") "hello world" "s").documents.map
          (fun c => (c.source, c.index))) = [("s", 0), ("s", 0)] ∧
    ¬ List.Pairwise (fun a b : Chunk => a.source = b.source → a.index ≠ b.index)
        (addDocument 500 100 (addDocument 500 100 (initializeStore 500 100 emptyStore none).1
          "hello world" "s") "hello world" "s").documents := by
  constructor <;> decide

/-- A well-formed event trace stays well-formed when truncated: the throw
point of an `execute` only sees a prefix of its full call trace. -/
theorem eventsOK_append : ∀ (l1 l2 : List AgentEvent) (c : ℕ),
    eventsOK c (l1 ++ l2) → eventsOK c l1 := by
  intro l1
  induction l1 with
  | nil => intro l2 c _; trivial
  | cons e rest ih =>
    intro l2 c h
    cases e with
    | logMsg lvl msg => exact ih l2 c h
    | update st msg p? =>
      obtain ⟨hst, hrest⟩ := h
      refine ⟨hst, ?_⟩
      cases p? with
      | none => exact ih l2 c hrest
      | some p => exact ⟨hrest.1, hrest.2.1, ih l2 p hrest.2.2⟩

/-- The head of a `scanl` is its initial value. -/
theorem scanl_head {α β : Type} (f : β → α → β) (l : List α) (b : β) :
    (List.scanl f b l).head? = some b := by
  cases l <;> simp [List.scanl_cons, List.scanl_nil]

/-- The last entry of a `scanl` is the corresponding `foldl`. -/
theorem scanl_getLast {α β : Type} (f : β → α → β) :
    ∀ (l : List α) (b : β), (List.scanl f b l).getLast? = some (List.foldl f b l) := by
  intro l
  induction l with
  | nil => intro b; simp [List.scanl_nil]
  | cons a l ih =>
    intro b
    rw [List.scanl_cons, List.foldl_cons]
    rcases List.exists_cons_of_ne_nil (l := List.scanl f (f b a) l) (by cases l <;> simp) with
      ⟨y, ys, hy⟩
    rw [hy, List.singleton_append, List.getLast?_cons_cons, ← hy, ih]

/-- The `foldl` value occurs in the `scanl`. -/
theorem foldl_mem_scanl {α β : Type} (f : β → α → β) :
    ∀ (l : List α) (b : β), List.foldl f b l ∈ List.scanl f b l := by
  intro l
  induction l with
  | nil => intro b; simp [List.scanl_nil]
  | cons a l ih =>
    intro b
    rw [List.scanl_cons, List.foldl_cons, List.singleton_append]
    exact List.mem_cons_of_mem _ (ih (f b a))

/-- Along a well-formed event trace, the state sequence `scanl stepState`
has non-decreasing progress, keeps progress below 100 and never reaches
status `complete`. -/
theorem scanl_progress : ∀ (es : List AgentEvent) (c : ℕ) (s : AgentState),
    s.progress = c → s.status ≠ .complete → c < 100 → eventsOK c es →
    List.Chain' (fun a b : AgentState => a.progress ≤ b.progress)
      (List.scanl stepState s es) ∧
    ∀ t ∈ List.scanl stepState s es, t.progress < 100 ∧ t.status ≠ .complete := by
  intro es
  induction es with
  | nil =>
    intro c s hp hs hc _
    refine ⟨by simp [List.scanl_nil], ?_⟩
    intro t ht
    rw [List.scanl_nil, List.mem_singleton] at ht
    subst ht
    exact ⟨hp ▸ hc, hs⟩
  | cons e es ih =>
    intro c s hp hs hc hok
    rw [List.scanl_cons, List.singleton_append]
    cases e with
    | logMsg lvl msg =>
      have hstep : stepState s (.logMsg lvl msg) = s := rfl
      have h2 := ih c s hp hs hc hok
      rw [hstep]
      refine ⟨List.chain'_cons'.mpr ⟨?_, h2.1⟩, ?_⟩
      · intro y hy
        rw [scanl_head] at hy
        simp at hy
        subst hy
        exact le_refl _
      · intro t ht
        rcases List.mem_cons.mp ht with h | h
        · subst h; exact ⟨hp ▸ hc, hs⟩
        · exact h2.2 t h
    | update st msg p? =>
      obtain ⟨hst, hrest⟩ := hok
      cases p? with
      | none =>
        have hprog : (stepState s (.update st msg none)).progress = c := by
          simp [stepState, hp]
        have hstat : (stepState s (.update st msg none)).status ≠ .complete := by
          simp [stepState, hst]
        have h2 := ih c _ hprog hstat hc hrest
        refine ⟨List.chain'_cons'.mpr ⟨?_, h2.1⟩, ?_⟩
        · intro y hy
          rw [scanl_head] at hy
          simp at hy
          subst hy
          rw [hp, hprog]
        · intro t ht
          rcases List.mem_cons.mp ht with h | h
          · subst h; exact ⟨hp ▸ hc, hs⟩
          · exact h2.2 t h
      | some p =>
        obtain ⟨hcp, hplt, hrest⟩ := hrest
        have hprog : (stepState s (.update st msg (some p))).progress = p := by
          simp [stepState]
        have hstat : (stepState s (.update st msg (some p))).status ≠ .complete := by
          simp [stepState, hst]
        have h2 := ih p _ hprog hstat hplt hrest
        refine ⟨List.chain'_cons'.mpr ⟨?_, h2.1⟩, ?_⟩
        · intro y hy
          rw [scanl_head] at hy
          simp at hy
          subst hy
          rw [hp, hprog]
          exact hcp
        · intro t ht
          rcases List.mem_cons.mp ht with h | h
          · subst h; exact ⟨hp ▸ hc, hs⟩
          · exact h2.2 t h

/-- Every `execute` call trace of an agent defined in this repository is
well-formed: statuses are always `running`, progress milestones are
non-decreasing and at most 95. -/
theorem repoAgent_eventsOK : ∀ a : RepoAgent, eventsOK 0 (repoAgentEvents a) := by
  intro a
  cases a with
  | networkAnalysis rag n =>
    cases rag <;> rcases Nat.eq_zero_or_pos n with h | h <;>
      simp [repoAgentEvents, networkAnalysisEvents, eventsOK, h]
  | selfHealingA rag n =>
    cases rag <;> rcases Nat.eq_zero_or_pos n with h | h <;>
      simp [repoAgentEvents, selfHealingEvents, eventsOK, h]
  | customerAnalytics nd ls ni =>
    rcases Nat.eq_zero_or_pos ls with h | h <;>
      simp [repoAgentEvents, customerAnalyticsEvents, eventsOK, h]
  | sentimentA => simp [repoAgentEvents, sentimentEvents, eventsOK]
  | researchA topic nd => simp [repoAgentEvents, researchEvents, eventsOK]
  | outlineA topic ns => simp [repoAgentEvents, outlineEvents, eventsOK]
  | editorA ch q => simp [repoAgentEvents, editorEvents, eventsOK]
  | networkRegion rag nr =>
    cases rag <;> simp [repoAgentEvents, networkRegionEvents, eventsOK]

/-- C8: for every run of an agent defined in this codebase — whatever its
branch parameters, and whether `execute` returns or throws at any point of
its call trace — the `progress` field is non-decreasing along the state
trajectory of `run()`, and at every point of the trajectory progress is 100
exactly when the status is `complete`. -/
theorem agent_progress_invariant {α : Type} (a : RepoAgent) (beh : ExecBehavior α)
    (hv : validBehavior (repoAgentEvents a) beh) :
    List.Chain' (fun s t : AgentState => s.progress ≤ t.progress)
      (runTrajectory (repoAgentRole a) beh) ∧
    ∀ s ∈ runTrajectory (repoAgentRole a) beh, (s.progress = 100 ↔ s.status = .complete) := by
  have hfull := repoAgent_eventsOK a
  have hpre : eventsOK 0 beh.events := by
    rcases hv with ⟨_, hev⟩ | ⟨_, l, hev⟩
    · rw [hev]; exact hfull
    · rw [← hev] at hfull
      exact eventsOK_append _ _ _ hfull
  set role := repoAgentRole a
  have hmain := scanl_progress beh.events 0 (initialRunState role) rfl
    (by simp [initialRunState]) (by norm_num) hpre
  have hlast : (List.scanl stepState (initialRunState role) beh.events).getLast? =
      some (List.foldl stepState (initialRunState role) beh.events) :=
    scanl_getLast _ _ _
  have hfmem : List.foldl stepState (initialRunState role) beh.events ∈
      List.scanl stepState (initialRunState role) beh.events :=
    foldl_mem_scanl _ _ _
  have hfold := hmain.2 _ hfmem
  unfold runTrajectory
  constructor
  · rw [List.chain'_append]
    refine ⟨hmain.1, List.chain'_singleton _, ?_⟩
    intro x hx y hy
    rw [hlast] at hx
    simp at hx hy
    subst hx
    subst hy
    match houtcome : beh.outcome with
    | .ok d => simp [runAgent, houtcome]; exact le_of_lt hfold.1
    | .error msg => simp [runAgent, houtcome]
  · intro s hs
    rcases List.mem_append.mp hs with h | h
    · have := hmain.2 s h
      constructor
      · intro hp; exact absurd hp (Nat.ne_of_lt this.1)
      · intro hc; exact absurd hc this.2
    · rw [List.mem_singleton] at h
      subst h
      match houtcome : beh.outcome with
      | .ok d => simp [runAgent, houtcome]
      | .error msg =>
        simp [runAgent, houtcome]
        exact fun hp => absurd hp (Nat.ne_of_lt hfold.1)

/-- Witness for C8: a research-agent run that completes normally. -/
theorem agent_progress_invariant_witness :
    List.Chain' (fun s t : AgentState => s.progress ≤ t.progress)
      (runTrajectory (repoAgentRole (.researchA "outages" 2))
        (⟨researchEvents "outages" 2, .ok ()⟩ : ExecBehavior Unit)) ∧
    ∀ s ∈ runTrajectory (repoAgentRole (.researchA "outages" 2))
        (⟨researchEvents "outages" 2, .ok ()⟩ : ExecBehavior Unit),
      (s.progress = 100 ↔ s.status = .complete) :=
  agent_progress_invariant (.researchA "outages" 2) ⟨researchEvents "outages" 2, .ok ()⟩
    (Or.inl ⟨⟨(), rfl⟩, rfl⟩)

/-- `Math.floor` pushes the randomized value strictly inside
`(0.8·base − 1, 1.2·base)`: at least the −20% bound minus one (the floor can
drop below the −20% point itself), and strictly below the +20% bound since
`Math.random() < 1`. -/
theorem randomize_bounds (base r : ℚ) (hb : 0 < base) (h0 : 0 ≤ r) (h1 : r < 1) :
    (4/5) * base - 1 < (randomize base r : ℚ) ∧ ((randomize base r : ℚ)) < (6/5) * base := by
  unfold randomize
  have hd : (0:ℚ) < base * (1 + 1/5) - base * (1 - 1/5) := by nlinarith
  have hlo : (4/5) * base ≤ base * (1 - 1/5) + r * (base * (1 + 1/5) - base * (1 - 1/5)) := by
    nlinarith [mul_nonneg h0 hd.le]
  have hhi : base * (1 - 1/5) + r * (base * (1 + 1/5) - base * (1 - 1/5)) < (6/5) * base := by
    nlinarith [(mul_lt_mul_of_pos_right h1 hd)]
  constructor
  · calc (4/5) * base - 1
        ≤ base * (1 - 1/5) + r * (base * (1 + 1/5) - base * (1 - 1/5)) - 1 := by linarith
      _ < _ := Int.sub_one_lt_floor _
  · exact lt_of_le_of_lt (Int.floor_le _) hhi

/-- Every template in the plan table has positive cost, downtime and
customer-impact bases. -/
theorem allRepairPlans_pos :
    ∀ p ∈ allRepairPlans, 0 < p.baseCost ∧ 0 < p.baseDowntime ∧ 0 < p.baseCustomers := by
  intro p hp
  fin_cases hp <;> norm_num [allRepairPlans]

/-- `mapIdx` on a three-element list, by computation. -/
theorem mapIdx_three {α β : Type} (f : ℕ → α → β) (a b c : α) :
    List.mapIdx f [a, b, c] = [f 0 a, f 1 b, f 2 c] := rfl

/-- C7 (amended): for every outcome of the shuffle and of the random draws,
a remediation run yields exactly 3 actions with exactly one
`isRecommended`; each numeric field comes from its template's base `b` and
lies strictly between `0.8·b − 1` and `1.2·b` — the `Math.floor` can land
up to one unit below the −20% bound, so the exact ±20% band of the original
claim does not hold (see the counterexample). -/
theorem repair_actions_spec (shuffled : List PlanTemplate)
    (hperm : shuffled.Perm allRepairPlans) (rand : ℕ → ℚ × ℚ × ℚ)
    (hrand : ∀ i, (0 ≤ (rand i).1 ∧ (rand i).1 < 1) ∧ (0 ≤ (rand i).2.1 ∧ (rand i).2.1 < 1) ∧
      (0 ≤ (rand i).2.2 ∧ (rand i).2.2 < 1)) :
    (generateRepairActions shuffled rand).length = 3 ∧
    ((generateRepairActions shuffled rand).filter (fun a => a.isRecommended)).length = 1 ∧
    ∀ a ∈ generateRepairActions shuffled rand, ∃ p ∈ allRepairPlans,
      a.name = p.name ∧
      ((4/5) * p.baseCost - 1 < (a.estimatedCost : ℚ) ∧
        (a.estimatedCost : ℚ) < (6/5) * p.baseCost) ∧
      ((4/5) * p.baseDowntime - 1 < (a.estimatedDowntime : ℚ) ∧
        (a.estimatedDowntime : ℚ) < (6/5) * p.baseDowntime) ∧
      ((4/5) * p.baseCustomers - 1 < (a.affectedCustomers : ℚ) ∧
        (a.affectedCustomers : ℚ) < (6/5) * p.baseCustomers) := by
  have hlen10 : shuffled.length = 10 := by
    rw [hperm.length_eq]; rfl
  have hlen3 : (shuffled.take 3).length = 3 := by
    rw [List.length_take, hlen10]
    norm_num
  obtain ⟨p0, p1, p2, htake⟩ := List.length_eq_three.mp hlen3
  have hsubset : ∀ q ∈ shuffled.take 3, q ∈ allRepairPlans := by
    intro q hq
    exact hperm.subset ((List.take_sublist 3 shuffled).subset hq)
  have hmem0 : p0 ∈ allRepairPlans := hsubset p0 (by rw [htake]; simp)
  have hmem1 : p1 ∈ allRepairPlans := hsubset p1 (by rw [htake]; simp)
  have hmem2 : p2 ∈ allRepairPlans := hsubset p2 (by rw [htake]; simp)
  unfold generateRepairActions
  rw [htake, mapIdx_three]
  refine ⟨rfl, ?_, ?_⟩
  · simp [List.filter]
  · intro a ha
    have hfield : ∀ (i : ℕ) (p : PlanTemplate), p ∈ allRepairPlans →
        ∃ q ∈ allRepairPlans,
          ({ id := "repair-" ++ toString (i + 1), name := p.name,
             description := p.description,
             estimatedCost := randomize p.baseCost (rand i).1,
             estimatedDowntime := randomize p.baseDowntime (rand i).2.1,
             affectedCustomers := randomize p.baseCustomers (rand i).2.2,
             steps := p.steps, isRecommended := i == 0,
             confidence := p.confidence } : RepairAction).name = q.name ∧
          ((4/5) * q.baseCost - 1 < ((randomize p.baseCost (rand i).1 : ℤ) : ℚ) ∧
            ((randomize p.baseCost (rand i).1 : ℤ) : ℚ) < (6/5) * q.baseCost) ∧
          ((4/5) * q.baseDowntime - 1 < ((randomize p.baseDowntime (rand i).2.1 : ℤ) : ℚ) ∧
            ((randomize p.baseDowntime (rand i).2.1 : ℤ) : ℚ) < (6/5) * q.baseDowntime) ∧
          ((4/5) * q.baseCustomers - 1 < ((randomize p.baseCustomers (rand i).2.2 : ℤ) : ℚ) ∧
            ((randomize p.baseCustomers (rand i).2.2 : ℤ) : ℚ) < (6/5) * q.baseCustomers) := by
      intro i p hp
      obtain ⟨hc, hd, hcu⟩ := allRepairPlans_pos p hp
      obtain ⟨hr1, hr2, hr3⟩ := hrand i
      exact ⟨p, hp, rfl,
        randomize_bounds p.baseCost (rand i).1 hc hr1.1 hr1.2,
        randomize_bounds p.baseDowntime (rand i).2.1 hd hr2.1 hr2.2,
        randomize_bounds p.baseCustomers (rand i).2.2 hcu hr3.1 hr3.2⟩
    simp only [List.mem_cons, List.not_mem_nil, or_false] at ha
    rcases ha with rfl | rfl | rfl
    · exact hfield 0 p0 hmem0
    · exact hfield 1 p1 hmem1
    · exact hfield 2 p2 hmem2

/-- C7 counterexample: with the identity shuffle and all random draws 0 —
both possible outcomes — the third action comes from the template with
`baseDowntime = 3` (DNS Failover) and gets
`estimatedDowntime = ⌊0.8·3⌋ = 2`, which lies strictly below the −20% bound
`0.8·3 = 2.4`: the claimed ±20% band is violated. -/
theorem repair_actions_floor_counterexample :
    ((generateRepairActions allRepairPlans (fun _ => (0, 0, 0))).map
        (fun a => a.estimatedDowntime))[2]? = some 2 ∧
    ((allRepairPlans.map (fun p => p.baseDowntime))[2]? = some 3) ∧
    ¬ ((4/5 : ℚ) * 3 ≤ ((2 : ℤ) : ℚ)) := by
  refine ⟨?_, ?_, ?_⟩
  · show (((List.take 3 allRepairPlans).mapIdx _).map _)[2]? = some 2
    norm_num [allRepairPlans, mapIdx_three, randomize]
  · norm_num [allRepairPlans]
  · norm_num

/-- Witness for the amended C7, at the identity shuffle and the all-zero
random draws. -/
theorem repair_actions_spec_witness :
    (generateRepairActions allRepairPlans (fun _ => (0, 0, 0))).length = 3 ∧
    ((generateRepairActions allRepairPlans (fun _ => (0, 0, 0))).filter
      (fun a => a.isRecommended)).length = 1 ∧
    ∀ a ∈ generateRepairActions allRepairPlans (fun _ => (0, 0, 0)), ∃ p ∈ allRepairPlans,
      a.name = p.name ∧
      ((4/5) * p.baseCost - 1 < (a.estimatedCost : ℚ) ∧
        (a.estimatedCost : ℚ) < (6/5) * p.baseCost) ∧
      ((4/5) * p.baseDowntime - 1 < (a.estimatedDowntime : ℚ) ∧
        (a.estimatedDowntime : ℚ) < (6/5) * p.baseDowntime) ∧
      ((4/5) * p.baseCustomers - 1 < (a.affectedCustomers : ℚ) ∧
        (a.affectedCustomers : ℚ) < (6/5) * p.baseCustomers) :=
  repair_actions_spec allRepairPlans (List.Perm.refl _) (fun _ => (0, 0, 0))
    (fun _ => by norm_num)

/-- An `Except` bind on a thrown error propagates the error. -/
theorem except_error_bind {ε α β : Type} (e : ε) (f : α → Except ε β) :
    (Except.error e >>= f) = Except.error e := rfl

/-- An `Except` bind on a pure value applies the continuation. -/
theorem except_pure_bind {ε α β : Type} (a : α) (f : α → Except ε β) :
    ((pure a : Except ε α) >>= f) = f a := rfl

/-- C1 (amended): the orchestrator never checks an invoked agent's
`success`; whenever a run it invokes has failed (`data = null`), `execute`
throws a TypeError while composing the observation and the workflow aborts
— no step with a failure observation is recorded and the remaining planned
steps do not run.  Stated for the two invocable call sites: the step-1
research branch and the step-2 customer-analytics branch. -/
theorem workflow_failed_run_aborts (query : String) (enableRAG : Bool)
    (nr : RunResult NetworkAnalysisData) (rr : RunResult RAGContext)
    (cr : RunResult CustomerAnalyticsData) (sr : RunResult SelfHealingData) :
    (determineAction (reason query 1) query = researchActionText → rr.data = none →
      ∃ e, wfExecute query enableRAG nr rr cr sr = .error e) ∧
    ((strIncludes (lowerStr query) "customer" || strIncludes (lowerStr query) "sentiment") =
        true →
      cr.data = none → ∃ e, wfExecute query enableRAG nr rr cr sr = .error e) := by
  constructor
  · intro h1 h2
    refine ⟨"TypeError: cannot read properties of null (reading documents)", ?_⟩
    have e1 : strIncludes researchActionText "network" = false := by decide
    have e3 : strIncludes researchActionText "retrieve" = true := by decide
    simp [wfExecute, h1, h2, e1, e3, except_error_bind, except_pure_bind]
  · intro h1 h2
    by_cases hn : strIncludes (determineAction (reason query 1) query) "network"
    · cases hnr : nr.data with
      | none =>
        exact ⟨"TypeError: cannot read properties of null (reading overallStatus)",
          by simp [wfExecute, hn, hnr, except_error_bind, except_pure_bind]⟩
      | some d =>
        exact ⟨"TypeError: cannot read properties of null (reading positiveInsights)",
          by simp [wfExecute, hn, hnr, h1, h2, except_error_bind, except_pure_bind]⟩
    · by_cases hr : (strIncludes (determineAction (reason query 1) query) "research" ||
          strIncludes (determineAction (reason query 1) query) "retrieve") = true
      · cases hrr : rr.data with
        | none =>
          exact ⟨"TypeError: cannot read properties of null (reading documents)",
            by simp [wfExecute, hn, hr, hrr, except_error_bind, except_pure_bind]⟩
        | some d =>
          exact ⟨"TypeError: cannot read properties of null (reading positiveInsights)",
            by simp [wfExecute, hn, hr, hrr, h1, h2, except_error_bind, except_pure_bind]⟩
      · exact ⟨"TypeError: cannot read properties of null (reading positiveInsights)",
          by simp [wfExecute, hn, hr, h1, h2, except_error_bind, except_pure_bind]⟩

/-- C1 counterexample: on query "hello" (step 1 invokes the research agent)
with the research run failed (`success = false`, `data = null`), `execute`
propagates a TypeError — it does not record the failure and continue; with
the same query and a successful research run it completes normally, so the
abort is caused precisely by the failed agent run. -/
theorem workflow_failed_run_counterexample :
    wfExecute "hello" true ⟨true, some ⟨.healthy, []⟩⟩ ⟨false, none⟩
        ⟨true, some ⟨[], []⟩⟩ ⟨true, some ⟨[], .stable⟩⟩ =
      Except.error "TypeError: cannot read properties of null (reading documents)" ∧
    (wfExecute "hello" true ⟨true, some ⟨.healthy, []⟩⟩ ⟨true, some ⟨"q", [], 0⟩⟩
        ⟨true, some ⟨[], []⟩⟩ ⟨true, some ⟨[], .stable⟩⟩).isOk = true := by
  constructor <;> rfl

/-- Witness for the amended C1: both failing call sites at concrete
queries. -/
theorem workflow_failed_run_aborts_witness :
    (∃ e, wfExecute "hello" true ⟨true, some ⟨.healthy, []⟩⟩ ⟨false, none⟩
        ⟨true, some ⟨[], []⟩⟩ ⟨true, some ⟨[], .stable⟩⟩ = .error e) ∧
    (∃ e, wfExecute "customer complaints" true ⟨true, some ⟨.healthy, []⟩⟩
        ⟨true, some ⟨"q", [], 0⟩⟩ ⟨false, none⟩ ⟨true, some ⟨[], .stable⟩⟩ = .error e) :=
  ⟨(workflow_failed_run_aborts "hello" true ⟨true, some ⟨.healthy, []⟩⟩ ⟨false, none⟩
      ⟨true, some ⟨[], []⟩⟩ ⟨true, some ⟨[], .stable⟩⟩).1 (by decide) rfl,
   (workflow_failed_run_aborts "customer complaints" true ⟨true, some ⟨.healthy, []⟩⟩
      ⟨true, some ⟨"q", [], 0⟩⟩ ⟨false, none⟩ ⟨true, some ⟨[], .stable⟩⟩).2 (by decide) rfl⟩

/-- A nonempty all-`p` accumulator always yields some run at least as long
as itself. -/
theorem runsAux_suffix_long (p : Char → Bool) :
    ∀ (v acc : List Char), acc ≠ [] → (∀ c ∈ acc, p c = true) →
      ∃ r ∈ runsAux p v acc, acc.length ≤ r.length := by
  intro v
  induction v with
  | nil =>
    intro acc hne _
    refine ⟨acc.reverse, ?_, by simp⟩
    simp [runsAux, List.isEmpty_iff, hne]
  | cons c cs ih =>
    intro acc hne hall
    by_cases hc : p c = true
    · have h2 := ih (c :: acc) (by simp) (by
        intro x hx
        rcases List.mem_cons.mp hx with rfl | hx
        · exact hc
        · exact hall x hx)
      obtain ⟨r, hr, hlen⟩ := h2
      refine ⟨r, ?_, by simpa using Nat.le_of_succ_le hlen⟩
      simpa [runsAux, hc] using hr
    · refine ⟨acc.reverse, ?_, by simp⟩
      have hc2 : p c = false := by simpa using hc
      simp [runsAux, hc2, List.isEmpty_iff, hne]

/-- An all-`p` block at the head of the remaining input extends into a run
of at least the block's length plus the accumulator's. -/
theorem runsAux_prefix_run (p : Char → Bool) :
    ∀ (kw v acc : List Char), (∀ c ∈ acc, p c = true) → (∀ c ∈ kw, p c = true) →
      (kw ≠ [] ∨ acc ≠ []) →
      ∃ r ∈ runsAux p (kw ++ v) acc, acc.length + kw.length ≤ r.length := by
  intro kw
  induction kw with
  | nil =>
    intro v acc hacc _ hne
    rcases hne with h | h
    · exact absurd rfl h
    · simpa using runsAux_suffix_long p v acc h hacc
  | cons k kw ih =>
    intro v acc hacc hkw _
    have hk : p k = true := hkw k (List.mem_cons_self _ _)
    have h2 := ih v (k :: acc)
      (by
        intro x hx
        rcases List.mem_cons.mp hx with rfl | hx
        · exact hk
        · exact hacc x hx)
      (fun c hc => hkw c (List.mem_cons_of_mem _ hc))
      (Or.inr (by simp))
    obtain ⟨r, hr, hlen⟩ := h2
    refine ⟨r, ?_, ?_⟩
    · simpa [runsAux, hk] using hr
    · simp only [List.length_cons] at hlen ⊢
      omega

/-- A contiguous all-`p` block anywhere in the input yields a run at least
as long as the block. -/
theorem runsAux_infix_run (p : Char → Bool) (kw : List Char)
    (hkw : ∀ c ∈ kw, p c = true) (hne : kw ≠ []) :
    ∀ (u v acc : List Char), (∀ c ∈ acc, p c = true) →
      ∃ r ∈ runsAux p (u ++ (kw ++ v)) acc, kw.length ≤ r.length := by
  intro u
  induction u with
  | nil =>
    intro v acc hacc
    have h := runsAux_prefix_run p kw v acc hacc hkw (Or.inl hne)
    obtain ⟨r, hr, hlen⟩ := h
    exact ⟨r, by simpa using hr, by omega⟩
  | cons c u ih =>
    intro v acc hacc
    by_cases hc : p c = true
    · have h2 := ih v (c :: acc) (by
        intro x hx
        rcases List.mem_cons.mp hx with rfl | hx
        · exact hc
        · exact hacc x hx)
      obtain ⟨r, hr, hlen⟩ := h2
      exact ⟨r, by simpa [runsAux, hc] using hr, hlen⟩
    · have hc2 : p c = false := by simpa using hc
      by_cases hae : acc = []
      · have h2 := ih v [] (by intro x hx; cases hx)
        obtain ⟨r, hr, hlen⟩ := h2
        exact ⟨r, by simpa [runsAux, hc2, hae] using hr, hlen⟩
      · have h2 := ih v [] (by intro x hx; cases hx)
        obtain ⟨r, hr, hlen⟩ := h2
        refine ⟨r, ?_, hlen⟩
        simp only [List.cons_append, runsAux, hc2, List.isEmpty_iff, hae]
        simp [hr]

/-- A query containing a contiguous run of more than two word characters
tokenizes to a nonempty list. -/
theorem tokenize_ne_nil_of_keyword (q kw : String)
    (hsub : containsSeq (lowerData q) kw.data = true)
    (hkw : ∀ c ∈ kw.data, isWordChar c = true) (hlen : 2 < kw.data.length) :
    tokenize q ≠ [] := by
  obtain ⟨t, ht, hpre⟩ := List.any_eq_true.mp hsub
  rw [List.mem_tails] at ht
  obtain ⟨u, hu⟩ := ht
  obtain ⟨v, hv⟩ := List.isPrefixOf_iff_prefix.mp hpre
  have hq : lowerData q = u ++ (kw.data ++ v) := by rw [← hu, ← hv]
  have hne : kw.data ≠ [] := by
    intro h
    rw [h] at hlen
    simp at hlen
  obtain ⟨r, hr, hrlen⟩ :=
    runsAux_infix_run isWordChar kw.data hkw hne u v [] (by intro x hx; cases hx)
  rw [← hq] at hr
  have hmem : r ∈ tokenize q := by
    unfold tokenize
    rw [List.mem_filter]
    exact ⟨hr, by simp; omega⟩
  exact List.ne_nil_of_mem hmem

/-- Every retrieval keyword consists of word characters and has more than
two of them. -/
theorem retrievalKeywords_wordlike :
    ∀ kw ∈ retrievalKeywords, (∀ c ∈ kw.data, isWordChar c = true) ∧ 2 < kw.data.length := by
  decide

/-- Justification for `chunkScore`: past the keyword gate the relevance
score is never NaN, because the matched keyword guarantees a query token,
so the query-side division is never `0/0`. -/
theorem shouldRetrieve_no_nan (jsLog : ℕ → ℚ) (q d : String)
    (h : shouldRetrieve q = true) :
    (calculateRelevance jsLog q d).isSome = true := by
  obtain ⟨kw, hkwmem, hsub⟩ := List.any_eq_true.mp h
  obtain ⟨hword, hlong⟩ := retrievalKeywords_wordlike kw hkwmem
  have htok : tokenize q ≠ [] := tokenize_ne_nil_of_keyword q kw hsub hword hlong
  unfold calculateRelevance
  by_cases hd : (tokenize d).length = 0
  · simp [hd]
  · have hq : (tokenize q).length ≠ 0 := by
      intro h0
      exact htok (List.length_eq_zero.mp h0)
    simp [hd, hq]

end Sync
